import Mathlib

/-!
Verification of SolBridXML2MQTT (src/main.rs) against its specification.

The program polls an inverter's XML endpoint, decodes measurements, and fans
them out to an optional MQTT publish sink and an optional InfluxDB
time-series sink, counting consecutive cycle-level errors and terminating
fatally when the counter reaches `max_errors`.

Shallow embedding conventions:
  * Rust `String`/`&str` are Lean `String`; `u32`/`u64`/`u16` are `Nat`
    (the error counter is bounded by `max_errors ≤ u32::MAX` at every
    continuing step, so no overflow arises and `Nat` is faithful).
  * `f64` parsing (`parse_value`, src line 79-81) is abstracted as a
    parameter `pv : String → Option V` over an arbitrary value type `V`:
    the program only tests the parse for success and carries the parsed
    number opaquely into the data point, so every theorem below holds for
    the actual `str::parse::<f64>` as one instance of `pv`.
  * External I/O outcomes (HTTP fetch, body read, XML decode, per-publish
    MQTT results, InfluxDB batch-write result) are oracle inputs to each
    cycle, mirroring the `match` structure of `main`'s loop (lines 168-268).
-/

namespace SolBrid

/-- XML measurement element, from the serde struct `Measurement`
(src/main.rs lines 69-77): optional `@Value`, required `@Type`,
optional `@Unit`. -/
structure Measurement where
  value : Option String
  typ : String
  unit : Option String
  deriving Repr, DecidableEq

/-- From the serde struct `Measurements` (lines 63-67): the list of
`Measurement` children. -/
structure Measurements where
  measurement : List Measurement
  deriving Repr, DecidableEq

/-- From the serde struct `Device` (lines 53-61): `@Name`, `@Serial`,
and the `Measurements` child. -/
structure Device where
  name : String
  serial : String
  measurements : Measurements
  deriving Repr, DecidableEq

/-- From the serde struct `Root` (lines 47-51): the `Device` child. -/
structure Root where
  device : Device
  deriving Repr, DecidableEq

/-- MQTT topic built at line 191: `format!("inverter/{}/{}", serial, typ)`. -/
def mqttTopic (serial typ : String) : String :=
  "inverter/" ++ serial ++ "/" ++ typ

/-- Embedding of Rust `str::trim` on a character list: drop whitespace from
the right (via reverse), then from the left. -/
def trimChars (l : List Char) : List Char :=
  ((l.reverse.dropWhile Char.isWhitespace).reverse).dropWhile Char.isWhitespace

/-- Embedding of Rust `str::trim`. -/
def rustTrim (s : String) : String :=
  String.mk (trimChars s.data)

/-- MQTT payload built at line 192:
`format!("{} {}", value_str, unit_str).trim().to_string()`, where
`unit_str = measurement.unit.as_deref().unwrap_or("")` (line 187). -/
def mqttPayload (value_str : String) (unit : Option String) : String :=
  rustTrim (value_str ++ " " ++ unit.getD "")

/-- An InfluxDB data point as assembled by the builder at lines 208-219:
point name, tag list in builder order, and the single `value` field. -/
structure DataPoint (V : Type) where
  name : String
  tags : List (String × String)
  fieldVal : String × V
  deriving Repr, DecidableEq

/-- The point built at lines 208-215: name `"inverter_data"`, tags
`serial`, `type`, field `value`, plus a `unit` tag iff the unit is present
(lines 213-215). -/
def mkPoint (V : Type) (serial typ : String) (v : V) (unit : Option String) :
    DataPoint V :=
  { name := "inverter_data"
    tags := [("serial", serial), ("type", typ)] ++
      (match unit with
       | some u => [("unit", u)]
       | none => [])
    fieldVal := ("value", v) }

/-- Observable sink events of one cycle: an MQTT publish attempt with its
transport outcome, or the single InfluxDB batch write with its outcome. -/
inductive Event (V : Type) where
  | mqttPublish (topic payload : String) (ok : Bool)
  | influxWrite (points : List (DataPoint V)) (ok : Bool)
  deriving Repr, DecidableEq

/-- Returns true on MQTT publish events. -/
def Event.isPublish {V : Type} : Event V → Bool
  | .mqttPublish _ _ _ => true
  | .influxWrite _ _ => false

/-- Returns true on InfluxDB write events. -/
def Event.isWrite {V : Type} : Event V → Bool
  | .mqttPublish _ _ _ => false
  | .influxWrite _ _ => true

/-- Body of the per-measurement loop (lines 184-223): if `@Value` is absent
the sample is skipped entirely; otherwise, when the MQTT sink is
configured, one publish is attempted (lines 190-203, outcome `mqOk`), and,
when the InfluxDB sink is configured, a point is prepared iff `pv` parses
the raw value (lines 206-221). Returns the publish events and the points
this sample contributes to the cycle's batch. -/
def processSample {V : Type} (pv : String → Option V)
    (mqttEnabled influxEnabled : Bool) (serial : String)
    (m : Measurement) (mqOk : Bool) : List (Event V) × List (DataPoint V) :=
  match m.value with
  | none => ([], [])
  | some value_str =>
    let evs : List (Event V) :=
      if mqttEnabled then
        [.mqttPublish (mqttTopic serial m.typ)
          (mqttPayload value_str m.unit) mqOk]
      else []
    let pts : List (DataPoint V) :=
      if influxEnabled then
        match pv value_str with
        | some v => [mkPoint V serial m.typ v m.unit]
        | none => []
      else []
    (evs, pts)

/-- The `for measurement in ...` loop (lines 184-223): processes samples in
document order, concatenating publish events and accumulating the InfluxDB
batch. `mqOk i` is the transport outcome of the publish attempted for the
`i`-th measurement. -/
def dispatchMeasurements {V : Type} (pv : String → Option V)
    (mqttEnabled influxEnabled : Bool) (serial : String)
    (mqOk : Nat → Bool) : Nat → List Measurement →
    List (Event V) × List (DataPoint V)
  | _, [] => ([], [])
  | i, m :: ms =>
    let here := processSample pv mqttEnabled influxEnabled serial m (mqOk i)
    let rest := dispatchMeasurements pv mqttEnabled influxEnabled serial
      mqOk (i + 1) ms
    (here.1 ++ rest.1, here.2 ++ rest.2)

/-- The dispatch phase of a decoded cycle (lines 182-246): run the
per-measurement loop, then, if the InfluxDB sink is configured and the
batch is non-empty, issue the single batch write (lines 227-246, outcome
`influxOk`); a failed write increments the error counter by 1 (line 241).
Returns the cycle's event list and the counter increment contributed by
the dispatch phase. -/
def runDispatch {V : Type} (pv : String → Option V)
    (mqttEnabled influxEnabled : Bool) (root : Root)
    (mqOk : Nat → Bool) (influxOk : Bool) : List (Event V) × Nat :=
  let d := dispatchMeasurements pv mqttEnabled influxEnabled
    root.device.serial mqOk 0 root.device.measurements.measurement
  if influxEnabled && !d.2.isEmpty then
    (d.1 ++ [.influxWrite d.2 influxOk], if influxOk then 0 else 1)
  else
    (d.1, 0)

/-- Oracle input for one poll cycle, following the nested `match` in the
loop (lines 169-261): the HTTP GET fails, the body read fails, the XML
decode fails, or the cycle decodes to `root` with the given per-publish
and batch-write transport outcomes. -/
inductive CycleInput (V : Type) where
  | fetchErr
  | bodyErr
  | decodeErr
  | decoded (root : Root) (mqOk : Nat → Bool) (influxOk : Bool)

/-- One poll cycle's effect on the consecutive-error counter, and its sink
events, exactly as in the loop body (lines 168-261):
fetch error increments (line 258); body-read error only logs, leaving the
counter unchanged (line 254); decode error increments (line 249); a
decoded cycle resets the counter to 0 (line 175) before dispatching, after
which only a failed batch write adds 1 (line 241). -/
def cycleStep {V : Type} (pv : String → Option V)
    (mqttEnabled influxEnabled : Bool) (ec : Nat) :
    CycleInput V → Nat × List (Event V)
  | .fetchErr => (ec + 1, [])
  | .bodyErr => (ec, [])
  | .decodeErr => (ec + 1, [])
  | .decoded root mqOk influxOk =>
    let d := runDispatch pv mqttEnabled influxEnabled root mqOk influxOk
    (0 + d.2, d.1)

/-- The polling loop (lines 168-268) driven by a finite oracle list:
after each cycle the new counter is recorded and checked against
`max_errors` (line 263, `error_count >= config.max_errors`); on reaching
it the process exits fatally (line 264). Returns the end-of-cycle counter
trace (cut at the fatal cycle) and whether the run terminated fatally. -/
def runLoop {V : Type} (maxErrors : Nat) (pv : String → Option V)
    (mqttEnabled influxEnabled : Bool) (ec : Nat) :
    List (CycleInput V) → List Nat × Bool
  | [] => ([], false)
  | c :: cs =>
    let ec2 := (cycleStep pv mqttEnabled influxEnabled ec c).1
    if maxErrors ≤ ec2 then ([ec2], true)
    else
      let rest := runLoop maxErrors pv mqttEnabled influxEnabled ec2 cs
      (ec2 :: rest.1, rest.2)

/-- A clean-success cycle input used in concrete scenarios: decodes to a
device with no measurements, all transports succeeding. -/
def cleanCycle (V : Type) : CycleInput V :=
  .decoded ⟨⟨"Inv1", "SN1", ⟨[]⟩⟩⟩ (fun _ => true) true

/-! XML decoding (`from_str::<Root>`, line 173, against the serde
structs at lines 47-77).

The XML text is modelled at the element-tree level (tag name, attribute
list, child elements); serde-xml-rs maps the document's root element to
`Root`, a struct field renamed `"X"` to the child element / attribute
named `X`, `Option` fields to optional attributes, and the `Vec` field of
`Measurements` to all `Measurement` children in document order. Decoding
a required piece that is missing fails the whole deserialization. -/

/-- An XML element: tag name, attributes, child elements. -/
inductive XmlElement where
  | mk (name : String) (attrs : List (String × String))
      (children : List XmlElement)

/-- Tag name of an element. -/
def XmlElement.name : XmlElement → String
  | .mk n _ _ => n

/-- Attribute list of an element. -/
def XmlElement.attrs : XmlElement → List (String × String)
  | .mk _ a _ => a

/-- Child elements of an element. -/
def XmlElement.children : XmlElement → List XmlElement
  | .mk _ _ c => c

/-- Look up attribute `k` (first occurrence). -/
def getAttr (e : XmlElement) (k : String) : Option String :=
  (e.attrs.find? (fun p => p.1 == k)).map (fun p => p.2)

/-- The unique child element named `n`: serde's derived struct
deserialization treats child elements as map entries, so a second child
with the same name is a duplicate-field error, and the lookup fails
unless exactly one child carries the name. Unknown (differently named)
children are ignored, as serde does without deny-unknown-fields. -/
def findChild (e : XmlElement) (n : String) : Option XmlElement :=
  match e.children.filter (fun c => c.name == n) with
  | [c] => some c
  | _ => none

/-- All child elements named `n`, in document order. -/
def childrenNamed (e : XmlElement) (n : String) : List XmlElement :=
  e.children.filter (fun c => c.name == n)

/-- Decode one `Measurement` element (struct at lines 69-77): `@Type` is
required, `@Value` and `@Unit` are optional. -/
def decodeMeasurement (e : XmlElement) : Option Measurement :=
  match getAttr e "Type" with
  | none => none
  | some t => some ⟨getAttr e "Value", t, getAttr e "Unit"⟩

/-- Sequence decoding of a present `Vec<Measurement>` field (the seq
visitor): every element must decode, in order; any failing element fails
the whole sequence. The missing-field case (zero `Measurement` children)
is handled by `decodeMeasurements`, which never reaches this on an empty
list. -/
def decodeList : List XmlElement → Option (List Measurement)
  | [] => some []
  | e :: es =>
    match decodeMeasurement e, decodeList es with
    | some m, some ms => some (m :: ms)
    | _, _ => none

/-- Decode the `Measurements` container (struct at lines 63-67): the
`measurement: Vec<Measurement>` field carries no serde default, so zero
`Measurement` children is a missing-field error and the whole decode
fails; otherwise every child must decode, in document order, and any
failing child fails the whole decode. -/
def decodeMeasurements (e : XmlElement) : Option Measurements :=
  if (childrenNamed e "Measurement").isEmpty then none
  else (decodeList (childrenNamed e "Measurement")).map Measurements.mk

/-- Decode a `Device` element (struct at lines 53-61): `@Name` and
`@Serial` attributes and a `Measurements` child are all required; any
missing piece fails the whole decode. -/
def decodeDevice (e : XmlElement) : Option Device :=
  (getAttr e "Name").bind fun nm =>
    (getAttr e "Serial").bind fun serial =>
      (findChild e "Measurements").bind fun mc =>
        (decodeMeasurements mc).map fun ms => ⟨nm, serial, ms⟩

/-- Decode the document root (struct `Root`, lines 47-51): a `Device`
child is required. A result of none is the all-or-nothing `DecodeError`
of the cycle (lines 248-251). -/
def decodeRoot (doc : XmlElement) : Option Root :=
  (findChild doc "Device").bind fun d =>
    (decodeDevice d).map fun dev => ⟨dev⟩

/-- The expected document schema, from §6 of the spec:
`<Root><Device Name Serial><Measurements><Measurement Type Value? Unit?/>
...</Measurements></Device></Root>` — exactly one `Device` child carrying
`Name` and `Serial`, exactly one `Measurements` child holding one or more
`Measurement` children (the repeated element of the schema maps to a
required `Vec` field: zero occurrences are a missing field), each with a
required `Type`. -/
def matchesSchema (doc : XmlElement) : Prop :=
  ∃ d, findChild doc "Device" = some d ∧
    (getAttr d "Name").isSome ∧ (getAttr d "Serial").isSome ∧
    ∃ mc, findChild d "Measurements" = some mc ∧
      childrenNamed mc "Measurement" ≠ [] ∧
      ∀ m ∈ childrenNamed mc "Measurement", (getAttr m "Type").isSome

/-! Startup (configuration and sink initialization, lines 84-166). -/

/-- From the `MqttConfig` struct (lines 30-35). -/
structure MqttConfig where
  broker : String
  port : Nat
  client_id : String
  deriving Repr, DecidableEq

/-- From the `InfluxDbConfig` struct (lines 37-43). -/
structure InfluxDbConfig where
  url : String
  token : String
  org : String
  bucket : String
  deriving Repr, DecidableEq

/-- From the `Config` struct (lines 17-28): the two sink sections are
optional. -/
structure Config where
  inverter_url : String
  poll_interval_secs : Nat
  max_errors : Nat
  quiet_mode : Option Bool
  mqtt : Option MqttConfig
  influxdb : Option InfluxDbConfig
  deriving Repr, DecidableEq

/-- The process after a successfully parsed configuration: the MQTT and
InfluxDB clients exist iff their config sections do (lines 118-152); if
neither exists, `main` returns the configuration error before entering
the loop (lines 154-156); otherwise the polling loop runs (line 168
onward). `Except.error` carries the startup error message; `Except.ok`
carries the loop's counter trace and fatal flag. -/
def runMain {V : Type} (pv : String → Option V) (cfg : Config)
    (inputs : List (CycleInput V)) : Except String (List Nat × Bool) :=
  if cfg.mqtt.isNone && cfg.influxdb.isNone then
    .error "No valid MQTT or InfluxDB configuration found. Please check your config.toml."
  else
    .ok (runLoop cfg.max_errors pv cfg.mqtt.isSome cfg.influxdb.isSome 0 inputs)

/-! Concrete instances used in scenarios and witnesses. -/

/-- A concrete value-parse oracle standing in for `str::parse::<f64>` in
closed scenarios (strings of decimal digits succeed, anything else,
e.g. "n/a" or "230.5", fails). -/
def pvNat : String → Option Nat := fun s =>
  if s.data ≠ [] ∧ s.data.all Char.isDigit then
    some (s.data.foldl (fun n c => n * 10 + (c.toNat - 48)) 0)
  else none

/-- Replaces every transport outcome flag with `true`, keeping which
publishes and writes were attempted and with what data: two cycles with
the same stripped event list attempted exactly the same deliveries. -/
def stripOutcomes {V : Type} : List (Event V) → List (Event V)
  | [] => []
  | .mqttPublish t p _ :: es => .mqttPublish t p true :: stripOutcomes es
  | .influxWrite pts _ :: es => .influxWrite pts true :: stripOutcomes es

/-- The device reading of the spec's §8 scenario: serial SN1, one
measurement with a value ("Voltage_L1" = "230.5 V") and one without. -/
def sampleRoot : Root :=
  ⟨⟨"Inv1", "SN1",
    ⟨[⟨some "230.5", "Voltage_L1", some "V"⟩, ⟨none, "Status", none⟩]⟩⟩⟩

/-- A reading whose single measurement value "42" parses under pvNat. -/
def natRoot : Root := ⟨⟨"Inv1", "SN1", ⟨[⟨some "42", "Power", some "W"⟩]⟩⟩⟩

/-- The §8 scenario document: one measurement with Value and Unit, one
with only Type. -/
def sampleDoc : XmlElement :=
  .mk "Root" []
    [.mk "Device" [("Name", "Inv1"), ("Serial", "SN1")]
      [.mk "Measurements" []
        [.mk "Measurement"
          [("Type", "Voltage_L1"), ("Value", "230.5"), ("Unit", "V")] [],
         .mk "Measurement" [("Type", "Status")] []]]]

/-- A concrete configuration with both sink sections present. -/
def fullConfig : Config :=
  { inverter_url := "http://inverter.local/status.xml"
    poll_interval_secs := 30
    max_errors := 3
    quiet_mode := none
    mqtt := some ⟨"broker.local", 1883, "solbrid"⟩
    influxdb := some ⟨"http://influx.local", "token", "org", "solar"⟩ }

/-! Helper lemmas. -/

/-- One cycle increases the consecutive-error counter by at most one:
fetch and decode errors add exactly 1, a body-read error adds 0, and a
decoded cycle resets to 0 before a failed batch write can add its 1. -/
theorem cycleStep_le_succ {V : Type} (pv : String → Option V)
    (mE iE : Bool) (ec : Nat) (c : CycleInput V) :
    (cycleStep pv mE iE ec c).1 ≤ ec + 1 := by
  cases c with
  | fetchErr => simp [cycleStep]
  | bodyErr => simp [cycleStep]
  | decodeErr => simp [cycleStep]
  | decoded root mqOk influxOk =>
    simp only [cycleStep, runDispatch]
    split
    · split <;> omega
    · omega

/-- Starting below the threshold, the loop terminates fatally iff the
counter trace reaches the threshold value itself: the check at line 263
fires the first time the counter, which grows by at most 1 per cycle,
attains `max_errors`. -/
theorem runLoop_fatal_iff_mem {V : Type} (me : Nat) (pv : String → Option V)
    (mE iE : Bool) (inputs : List (CycleInput V)) :
    ∀ ec, ec < me →
      ((runLoop me pv mE iE ec inputs).2 = true ↔
        me ∈ (runLoop me pv mE iE ec inputs).1) := by
  induction inputs with
  | nil => intro ec _; simp [runLoop]
  | cons c cs ih =>
    intro ec hec
    have hle := cycleStep_le_succ pv mE iE ec c
    simp only [runLoop]
    by_cases hcase : me ≤ (cycleStep pv mE iE ec c).1
    · simp only [if_pos hcase]
      simp only [List.mem_singleton]
      constructor
      · intro _; omega
      · intro _; trivial
    · simp only [if_neg hcase]
      push_neg at hcase
      have := ih (cycleStep pv mE iE ec c).1 hcase
      simp only [List.mem_cons]
      constructor
      · intro ht; exact Or.inr (this.mp ht)
      · intro hmem
        rcases hmem with heq | hmem
        · omega
        · exact this.mpr hmem

/-- C1: with configured maximum N > 0, the loop terminates fatally
exactly when the consecutive-error counter reaches N; with N = 3, three
consecutive fetch failures terminate on the third cycle (trace 1, 2, 3,
the fourth input never runs), while the pattern failure, success,
failure, failure yields the counter trace 1, 0, 1, 2 and no
termination. -/
theorem C1_fatal_exactly_when_counter_reaches_max :
    (∀ (V : Type) (pv : String → Option V) (mE iE : Bool)
        (me : Nat) (inputs : List (CycleInput V)), 0 < me →
        ((runLoop me pv mE iE 0 inputs).2 = true ↔
          me ∈ (runLoop me pv mE iE 0 inputs).1)) ∧
    runLoop 3 pvNat true true 0
      [.fetchErr, .fetchErr, .fetchErr, cleanCycle Nat] = ([1, 2, 3], true) ∧
    runLoop 3 pvNat true true 0
      [.fetchErr, cleanCycle Nat, .fetchErr, .fetchErr] =
      ([1, 0, 1, 2], false) :=
  ⟨fun _ pv mE iE me inputs h => runLoop_fatal_iff_mem me pv mE iE inputs 0 h,
   by decide, by decide⟩

/-- Witness for C1 at a concrete run: threshold 3, three fetch
failures. -/
theorem C1_witness :
    (runLoop 3 pvNat true true 0
        [CycleInput.fetchErr, .fetchErr, .fetchErr]).2 = true ↔
      3 ∈ (runLoop 3 pvNat true true 0
        [CycleInput.fetchErr, .fetchErr, .fetchErr]).1 :=
  C1_fatal_exactly_when_counter_reaches_max.1 Nat pvNat true true 3 _
    (by decide)

/-- C2: a cycle whose fetch, body-read and decode all succeed resets the
counter to 0 (line 175) before dispatch, so its end-of-cycle counter does
not depend on the incoming counter, is at most 1 (only a failed batch
write can re-increment, line 241), and is exactly 0 when the batch write
succeeds; scenario failure, failure, success gives the trace 1, 2, 0. -/
theorem C2_reset_on_clean_decode :
    (∀ (V : Type) (pv : String → Option V) (mE iE : Bool) (ec : Nat)
        (root : Root) (mqOk : Nat → Bool) (influxOk : Bool),
        (cycleStep pv mE iE ec (.decoded root mqOk influxOk)).1 =
          (cycleStep pv mE iE 0 (.decoded root mqOk influxOk)).1 ∧
        (cycleStep pv mE iE ec (.decoded root mqOk influxOk)).1 ≤ 1 ∧
        (influxOk = true →
          (cycleStep pv mE iE ec (.decoded root mqOk influxOk)).1 = 0)) ∧
    runLoop 3 pvNat true true 0 [.fetchErr, .fetchErr, cleanCycle Nat] =
      ([1, 2, 0], false) := by
  constructor
  · intro V pv mE iE ec root mqOk influxOk
    refine ⟨rfl, ?_, ?_⟩
    · simp only [cycleStep, runDispatch]
      split
      · split <;> omega
      · omega
    · intro h
      subst h
      simp only [cycleStep, runDispatch]
      split <;> simp
  · decide

/-- Witness for C2: a clean cycle entered at counter 5 ends at 0. -/
theorem C2_witness :
    (cycleStep pvNat true true 5
      (.decoded sampleRoot (fun _ => true) true)).1 = 0 :=
  (C2_reset_on_clean_decode.1 Nat pvNat true true 5 sampleRoot
    (fun _ => true) true).2.2 rfl

/-- C3 counterexample: a cycle whose HTTP request succeeds but whose
body read fails leaves the counter unchanged (line 254 only logs), so at
incoming counter 5 the counter stays 5 instead of becoming 6 — the
claimed increment by exactly 1 does not happen. -/
theorem C3_counterexample :
    (cycleStep pvNat true true 5 CycleInput.bodyErr).1 = 5 ∧
    ¬ (cycleStep pvNat true true 5 CycleInput.bodyErr).1 = 5 + 1 := by
  decide

/-- C3 amended: a body-read failure leaves the consecutive-error counter
unchanged, unlike fetch and decode failures, which increment it by
exactly 1, and unlike a failed time-series batch write, which leaves the
freshly reset counter at 1 (shown on a reading whose value parses). -/
theorem C3_bodyErr_leaves_counter :
    (∀ (V : Type) (pv : String → Option V) (mE iE : Bool) (ec : Nat),
        (cycleStep pv mE iE ec .bodyErr).1 = ec ∧
        (cycleStep pv mE iE ec .fetchErr).1 = ec + 1 ∧
        (cycleStep pv mE iE ec .decodeErr).1 = ec + 1) ∧
    (cycleStep pvNat true true 7
      (.decoded natRoot (fun _ => true) false)).1 = 0 + 1 := by
  refine ⟨fun V pv mE iE ec => ⟨rfl, rfl, rfl⟩, ?_⟩
  decide

/-- C10: with max_errors = 0, the threshold check (line 263, a greater-or-
equal comparison against a counter starting at 0) fires at the end of the
very first cycle whatever its outcome, so the process terminates fatally
after one cycle even on full success (final counter 0). -/
theorem C10_max_errors_zero_fatal_first_cycle :
    (∀ (V : Type) (pv : String → Option V) (mE iE : Bool)
        (c : CycleInput V) (cs : List (CycleInput V)),
        runLoop 0 pv mE iE 0 (c :: cs) =
          ([(cycleStep pv mE iE 0 c).1], true)) ∧
    runMain pvNat { fullConfig with max_errors := 0 } [cleanCycle Nat] =
      .ok ([0], true) := by
  constructor
  · intro V pv mE iE c cs
    simp [runLoop]
  · rfl

/-- The points a sample contributes do not depend on the MQTT transport
outcome. -/
theorem processSample_points_indep {V : Type} (pv : String → Option V)
    (mE iE : Bool) (serial : String) (m : Measurement) (b b2 : Bool) :
    (processSample pv mE iE serial m b).2 =
      (processSample pv mE iE serial m b2).2 := by
  rcases m with ⟨v, t, u⟩
  cases v <;> rfl

/-- Stripping outcomes commutes with list concatenation. -/
theorem stripOutcomes_append {V : Type} (l1 l2 : List (Event V)) :
    stripOutcomes (l1 ++ l2) = stripOutcomes l1 ++ stripOutcomes l2 := by
  induction l1 with
  | nil => rfl
  | cons e es ih => cases e <;> simp [stripOutcomes, ih]

/-- The deliveries a sample attempts (topics, payloads, points) do not
depend on the MQTT transport outcome. -/
theorem processSample_strip_indep {V : Type} (pv : String → Option V)
    (mE iE : Bool) (serial : String) (m : Measurement) (b b2 : Bool) :
    stripOutcomes (processSample pv mE iE serial m b).1 =
      stripOutcomes (processSample pv mE iE serial m b2).1 := by
  rcases m with ⟨v, t, u⟩
  cases v
  · rfl
  · cases mE <;> rfl

/-- The batch accumulated by the per-measurement loop does not depend on
the MQTT transport outcomes. -/
theorem dispatch_points_indep {V : Type} (pv : String → Option V)
    (mE iE : Bool) (serial : String) (mqOk mqOk2 : Nat → Bool) :
    ∀ (ms : List Measurement) (i : Nat),
      (dispatchMeasurements pv mE iE serial mqOk i ms).2 =
        (dispatchMeasurements pv mE iE serial mqOk2 i ms).2 := by
  intro ms
  induction ms with
  | nil => intro i; rfl
  | cons m rest ih =>
    intro i
    simp only [dispatchMeasurements]
    rw [processSample_points_indep pv mE iE serial m (mqOk i) (mqOk2 i),
      ih (i + 1)]

/-- The deliveries attempted by the per-measurement loop do not depend on
the MQTT transport outcomes. -/
theorem dispatch_strip_indep {V : Type} (pv : String → Option V)
    (mE iE : Bool) (serial : String) (mqOk mqOk2 : Nat → Bool) :
    ∀ (ms : List Measurement) (i : Nat),
      stripOutcomes (dispatchMeasurements pv mE iE serial mqOk i ms).1 =
        stripOutcomes (dispatchMeasurements pv mE iE serial mqOk2 i ms).1 := by
  intro ms
  induction ms with
  | nil => intro i; rfl
  | cons m rest ih =>
    intro i
    simp only [dispatchMeasurements, stripOutcomes_append]
    rw [processSample_strip_indep pv mE iE serial m (mqOk i) (mqOk2 i),
      ih (i + 1)]

/-- With the MQTT sink configured, the per-measurement loop attempts one
publish per sample carrying a value, whatever the transport outcomes. -/
theorem dispatch_publish_count {V : Type} (pv : String → Option V)
    (iE : Bool) (serial : String) (mqOk : Nat → Bool) :
    ∀ (ms : List Measurement) (i : Nat),
      ((dispatchMeasurements pv true iE serial mqOk i ms).1.filter
          Event.isPublish).length =
        (ms.filter (fun m => m.value.isSome)).length := by
  intro ms
  induction ms with
  | nil => intro i; rfl
  | cons m rest ih =>
    intro i
    simp only [dispatchMeasurements, List.filter_append, List.length_append,
      List.filter_cons]
    rw [ih (i + 1)]
    rcases m with ⟨v, t, u⟩
    cases v
    · simp [processSample, Event.isPublish, Option.isSome]
    · simp [processSample, Event.isPublish, Option.isSome]
      omega

/-- C4 counterexample: at incoming counter 0, a cycle decoding the §8
sample reading whose only publish delivery fails (event outcome false)
still ends with counter 0 — the publish-sink failure is only logged
(line 197) and does not increment the counter, contradicting the
claim. -/
theorem C4_counterexample :
    (cycleStep pvNat true true 0
        (.decoded sampleRoot (fun _ => false) true)).1 = 0 ∧
    (cycleStep pvNat true true 0
        (.decoded sampleRoot (fun _ => false) true)).2 =
      [.mqttPublish "inverter/SN1/Voltage_L1" "230.5 V" false] := by
  decide

/-- C4 amended: a publish-sink delivery failure is logged but does not
increment the consecutive-error counter; it also does not change which
deliveries the cycle attempts — the counter, the stripped event list and
the number of publish attempts (one per sample carrying a value) are all
independent of the per-publish transport outcomes, so subsequent samples
and the time-series sink still proceed. -/
theorem C4_publish_failure_contained :
    ∀ (V : Type) (pv : String → Option V) (iE : Bool) (ec : Nat)
      (root : Root) (mqOk mqOk2 : Nat → Bool) (influxOk : Bool),
      (cycleStep pv true iE ec (.decoded root mqOk influxOk)).1 =
        (cycleStep pv true iE ec (.decoded root mqOk2 influxOk)).1 ∧
      stripOutcomes
          (cycleStep pv true iE ec (.decoded root mqOk influxOk)).2 =
        stripOutcomes
          (cycleStep pv true iE ec (.decoded root mqOk2 influxOk)).2 ∧
      ((cycleStep pv true iE ec (.decoded root mqOk influxOk)).2.filter
          Event.isPublish).length =
        (root.device.measurements.measurement.filter
          (fun m => m.value.isSome)).length := by
  intro V pv iE ec root mqOk mqOk2 influxOk
  have hpts := dispatch_points_indep pv true iE root.device.serial mqOk mqOk2
    root.device.measurements.measurement 0
  have hstrip := dispatch_strip_indep pv true iE root.device.serial mqOk mqOk2
    root.device.measurements.measurement 0
  have hcount := dispatch_publish_count pv iE root.device.serial mqOk
    root.device.measurements.measurement 0
  refine ⟨?_, ?_, ?_⟩
  · simp only [cycleStep, runDispatch]
    rw [hpts]
    split <;> rfl
  · simp only [cycleStep, runDispatch]
    rw [hpts]
    split
    · simp only [stripOutcomes_append]
      rw [hstrip]
    · exact hstrip
  · simp only [cycleStep, runDispatch]
    split
    · simp only [List.filter_append, List.length_append]
      simp [Event.isPublish, hcount]
    · exact hcount

/-- Appending a space character is absorbed by trimming. -/
theorem trimChars_append_space (l : List Char) :
    trimChars (l ++ [' ']) = trimChars l := by
  simp only [trimChars, List.reverse_append, List.reverse_cons, List.reverse_nil,
    List.nil_append, List.singleton_append, List.dropWhile_cons]
  have hw : Char.isWhitespace ' ' = true := by decide
  rw [if_pos hw]

/-- Rust's trim absorbs a trailing space. -/
theorem rustTrim_append_space (v : String) :
    rustTrim (v ++ " ") = rustTrim v := by
  unfold rustTrim
  have hd : (v ++ " ").data = v.data ++ [' '] := rfl
  rw [hd, trimChars_append_space]

/-- Appending the empty string is the identity. -/
theorem string_append_empty (s : String) : s ++ "" = s := by
  cases s with
  | mk data =>
    show String.mk (data ++ []) = String.mk data
    rw [List.append_nil]

/-- C6: a sample carrying a raw value is published (when the MQTT sink is
configured) on topic inverter/{serial}/{kind} with payload
"{rawValue} {unit}" trimmed, the unit segment omitted when the unit is
absent; a sample with no raw value produces no publish and no
time-series point. -/
theorem C6_publish_translation :
    ∀ (V : Type) (pv : String → Option V) (mE iE : Bool) (serial : String)
      (m : Measurement) (mqOk : Bool),
      (m.value = none → processSample pv mE iE serial m mqOk = ([], [])) ∧
      (∀ v, m.value = some v →
        (processSample pv true iE serial m mqOk).1 =
          [.mqttPublish ("inverter/" ++ serial ++ "/" ++ m.typ)
            (match m.unit with
             | some u => rustTrim (v ++ " " ++ u)
             | none => rustTrim v) mqOk]) := by
  intro V pv mE iE serial m mqOk
  rcases m with ⟨mv, t, u⟩
  constructor
  · intro hv
    cases hv
    rfl
  · intro v hv
    cases hv
    cases u with
    | none =>
      show [Event.mqttPublish (mqttTopic serial t)
        (mqttPayload v none) mqOk] = _
      rw [mqttPayload, Option.getD, string_append_empty,
        rustTrim_append_space]
      rfl
    | some u0 => rfl

/-- Witness for C6: the §8 scenario samples — "Voltage_L1" with value
"230.5" and unit "V" publishes payload "230.5 V"; "Status" with no value
produces nothing. -/
theorem C6_witness :
    processSample pvNat true true "SN1"
      ⟨none, "Status", none⟩ true = ([], []) ∧
    (processSample pvNat true true "SN1"
      ⟨some "230.5", "Voltage_L1", some "V"⟩ true).1 =
      [.mqttPublish ("inverter/" ++ "SN1" ++ "/" ++ "Voltage_L1")
        (rustTrim ("230.5" ++ " " ++ "V")) true] :=
  ⟨(C6_publish_translation Nat pvNat true true "SN1"
      ⟨none, "Status", none⟩ true).1 rfl,
   (C6_publish_translation Nat pvNat true true "SN1"
      ⟨some "230.5", "Voltage_L1", some "V"⟩ true).2 "230.5" rfl⟩

/-- C7: with both sinks configured, a sample whose raw value fails the
numeric parse contributes no time-series point but is still published
with the raw string unmodified; a sample whose raw value parses to x
contributes exactly the point named "inverter_data" tagged serial and
type, field value = x, with a unit tag iff the unit is present. -/
theorem C7_timeseries_translation :
    ∀ (V : Type) (pv : String → Option V) (serial : String)
      (m : Measurement) (mqOk : Bool) (v : String),
      m.value = some v →
      (pv v = none →
        (processSample pv true true serial m mqOk).2 = [] ∧
        (processSample pv true true serial m mqOk).1 =
          [.mqttPublish (mqttTopic serial m.typ)
            (mqttPayload v m.unit) mqOk]) ∧
      (∀ x, pv v = some x →
        (processSample pv true true serial m mqOk).2 =
          [{ name := "inverter_data"
             tags := [("serial", serial), ("type", m.typ)] ++
               (match m.unit with
                | some u => [("unit", u)]
                | none => [])
             fieldVal := ("value", x) }]) := by
  intro V pv serial m mqOk v hv
  rcases m with ⟨mv, t, u⟩
  cases hv
  constructor
  · intro hpv
    constructor
    · simp [processSample, hpv]
    · simp [processSample]
  · intro x hpv
    simp [processSample, hpv, mkPoint]

/-- Witness for C7: under the concrete digit parse, "n/a" fails (no point,
publish kept) while "42" parses to 42 and yields the tagged point. -/
theorem C7_witness :
    (processSample pvNat true true "SN1"
      ⟨some "n/a", "Status", none⟩ true).2 = [] ∧
    (processSample pvNat true true "SN1"
      ⟨some "42", "Power", some "W"⟩ true).2 =
      [{ name := "inverter_data"
         tags := [("serial", "SN1"), ("type", "Power"), ("unit", "W")]
         fieldVal := ("value", 42) }] :=
  ⟨((C7_timeseries_translation Nat pvNat "SN1"
      ⟨some "n/a", "Status", none⟩ true "n/a" rfl).1 (by decide)).1,
   (C7_timeseries_translation Nat pvNat "SN1"
      ⟨some "42", "Power", some "W"⟩ true "42" rfl).2 42 (by decide)⟩

/-- Publish events are not write events. -/
theorem isPublish_not_isWrite {V : Type} (e : Event V) :
    e.isPublish = true → e.isWrite = false := by
  cases e <;> simp [Event.isPublish, Event.isWrite]

/-- The per-measurement loop emits publish events only; no batch write
happens inside it. -/
theorem dispatch_all_publish {V : Type} (pv : String → Option V)
    (mE iE : Bool) (serial : String) (mqOk : Nat → Bool) :
    ∀ (ms : List Measurement) (i : Nat),
      ∀ e ∈ (dispatchMeasurements pv mE iE serial mqOk i ms).1,
        e.isPublish = true := by
  intro ms
  induction ms with
  | nil => intro i e he; exact absurd he (List.not_mem_nil e)
  | cons m rest ih =>
    intro i e he
    simp only [dispatchMeasurements, List.mem_append] at he
    rcases he with he | he
    · rcases m with ⟨v, t, u⟩
      cases v with
      | none => simp [processSample] at he
      | some v0 =>
        cases mE with
        | false => simp [processSample] at he
        | true =>
          simp only [processSample, if_true, List.mem_singleton] at he
          subst he
          rfl
    · exact ih (i + 1) e he

/-- C8: in every decoded cycle the event sequence is all the cycle's
publish events followed by the write events; there is at most one write;
no write happens when the accumulated batch is empty; and when the
time-series sink is configured and the batch is non-empty, the single
trailing write carries the entire batch. -/
theorem C8_single_trailing_batch_write :
    ∀ (V : Type) (pv : String → Option V) (mE iE : Bool) (ec : Nat)
      (root : Root) (mqOk : Nat → Bool) (influxOk : Bool),
      (cycleStep pv mE iE ec (.decoded root mqOk influxOk)).2.filter
          Event.isPublish ++
        (cycleStep pv mE iE ec (.decoded root mqOk influxOk)).2.filter
          Event.isWrite =
        (cycleStep pv mE iE ec (.decoded root mqOk influxOk)).2 ∧
      ((cycleStep pv mE iE ec (.decoded root mqOk influxOk)).2.filter
          Event.isWrite).length ≤ 1 ∧
      ((dispatchMeasurements pv mE iE root.device.serial mqOk 0
          root.device.measurements.measurement).2 = [] →
        (cycleStep pv mE iE ec (.decoded root mqOk influxOk)).2.filter
          Event.isWrite = []) ∧
      (iE = true →
        (dispatchMeasurements pv mE iE root.device.serial mqOk 0
          root.device.measurements.measurement).2 ≠ [] →
        (cycleStep pv mE iE ec (.decoded root mqOk influxOk)).2.filter
          Event.isWrite =
          [.influxWrite (dispatchMeasurements pv mE iE root.device.serial
            mqOk 0 root.device.measurements.measurement).2 influxOk]) := by
  intro V pv mE iE ec root mqOk influxOk
  have hall := dispatch_all_publish pv mE iE root.device.serial mqOk
    root.device.measurements.measurement 0
  have hfp : (dispatchMeasurements pv mE iE root.device.serial mqOk 0
      root.device.measurements.measurement).1.filter Event.isPublish =
      (dispatchMeasurements pv mE iE root.device.serial mqOk 0
      root.device.measurements.measurement).1 :=
    List.filter_eq_self.mpr hall
  have hfw : (dispatchMeasurements pv mE iE root.device.serial mqOk 0
      root.device.measurements.measurement).1.filter Event.isWrite = [] :=
    List.filter_eq_nil_iff.mpr (fun e he => by
      rw [isPublish_not_isWrite e (hall e he)]; exact Bool.false_ne_true)
  simp only [cycleStep, runDispatch]
  split
  · rename_i hcond
    refine ⟨?_, ?_, ?_, ?_⟩
    · simp [List.filter_append, hfp, hfw, Event.isPublish, Event.isWrite]
    · simp [List.filter_append, hfw, Event.isWrite]
    · intro hb
      rw [hb] at hcond
      simp at hcond
    · intro _ _
      simp [List.filter_append, hfw, Event.isWrite]
  · rename_i hcond
    refine ⟨?_, ?_, ?_, ?_⟩
    · simp [hfp, hfw]
    · simp [hfw]
    · intro _; exact hfw
    · intro hiE hne
      subst hiE
      simp [List.isEmpty_iff] at hcond
      exact absurd hcond hne

/-- Witness for C8: a cycle over a reading whose one value parses issues
exactly one write, carrying the whole batch. -/
theorem C8_witness :
    (cycleStep pvNat true true 0
        (.decoded natRoot (fun _ => true) true)).2.filter Event.isWrite =
      [.influxWrite (dispatchMeasurements pvNat true true
        natRoot.device.serial (fun _ => true) 0
        natRoot.device.measurements.measurement).2 true] :=
  (C8_single_trailing_batch_write Nat pvNat true true 0 natRoot
    (fun _ => true) true).2.2.2 rfl (by decide)

/-- C9: the at-least-one-sink check happens once at startup: with both
sink sections absent, the process fails with the configuration error
whatever the poll inputs (zero cycles run); with any sink present, the
run is exactly the polling loop's — startup never fails and the check is
never re-evaluated per cycle. -/
theorem C9_sink_check_at_startup :
    ∀ (V : Type) (pv : String → Option V) (cfg : Config)
      (inputs : List (CycleInput V)),
      (cfg.mqtt = none → cfg.influxdb = none →
        runMain pv cfg inputs = .error
          "No valid MQTT or InfluxDB configuration found. Please check your config.toml.") ∧
      ((cfg.mqtt.isSome || cfg.influxdb.isSome) = true →
        runMain pv cfg inputs = .ok
          (runLoop cfg.max_errors pv cfg.mqtt.isSome cfg.influxdb.isSome 0
            inputs)) := by
  intro V pv cfg inputs
  constructor
  · intro hm hi
    simp [runMain, hm, hi]
  · intro h
    have hc : (cfg.mqtt.isNone && cfg.influxdb.isNone) = false := by
      rcases hm : cfg.mqtt with _ | x
      · rcases hi : cfg.influxdb with _ | y
        · rw [hm, hi] at h
          simp at h
        · simp [hi]
      · simp [hm]
    simp [runMain, hc]

/-- Witness for C9: both sink sections removed from the full
configuration makes the run fail with the configuration error. -/
theorem C9_witness :
    runMain pvNat { fullConfig with mqtt := none, influxdb := none }
      [cleanCycle Nat] = .error
      "No valid MQTT or InfluxDB configuration found. Please check your config.toml." :=
  (C9_sink_check_at_startup Nat pvNat
    { fullConfig with mqtt := none, influxdb := none }
    [cleanCycle Nat]).1 rfl rfl

/-- A measurement element decodes iff its Type attribute is present. -/
theorem decodeMeasurement_isSome (e : XmlElement) :
    (decodeMeasurement e).isSome ↔ (getAttr e "Type").isSome := by
  unfold decodeMeasurement
  cases getAttr e "Type" <;> simp

/-- Fields of a decoded measurement come from the element's attributes. -/
theorem decodeMeasurement_fields (e : XmlElement) (m : Measurement) :
    decodeMeasurement e = some m →
    getAttr e "Type" = some m.typ ∧ m.value = getAttr e "Value" ∧
      m.unit = getAttr e "Unit" := by
  unfold decodeMeasurement
  rcases ht : getAttr e "Type" with _ | t
  · intro h
    exact Option.noConfusion h
  · intro h
    cases h
    exact ⟨rfl, rfl, rfl⟩

/-- A measurement list decodes iff every element does. -/
theorem decodeList_isSome : ∀ es : List XmlElement,
    (decodeList es).isSome ↔ ∀ e ∈ es, (decodeMeasurement e).isSome := by
  intro es
  induction es with
  | nil => simp [decodeList]
  | cons e rest ih =>
    rcases he : decodeMeasurement e with _ | m
    · simp only [decodeList, he]
      simp [List.forall_mem_cons, he]
    · rcases hr : decodeList rest with _ | ms
      · rw [hr] at ih
        simp only [Option.isSome_none, Bool.false_eq_true, false_iff] at ih
        simp only [decodeList, he, hr]
        simp [List.forall_mem_cons, ih]
      · rw [hr] at ih
        simp only [Option.isSome_some, true_iff] at ih
        simp only [decodeList, he, hr]
        simp [List.forall_mem_cons, he]
        exact ih

/-- A decoded measurement list pairs elementwise, in order, with its
source elements. -/
theorem decodeList_spec : ∀ (es : List XmlElement) (ms : List Measurement),
    decodeList es = some ms →
    ms.length = es.length ∧
    ∀ (i : Nat) (h1 : i < ms.length) (h2 : i < es.length),
      decodeMeasurement es[i] = some ms[i] := by
  intro es
  induction es with
  | nil =>
    intro ms h
    simp only [decodeList, Option.some.injEq] at h
    subst h
    refine ⟨rfl, ?_⟩
    intro i h1 _
    exact absurd h1 (Nat.not_lt_zero i)
  | cons e rest ih =>
    intro ms h
    rcases he : decodeMeasurement e with _ | m
    · simp only [decodeList, he] at h
      exact Option.noConfusion h
    · rcases hr : decodeList rest with _ | tail
      · simp only [decodeList, he, hr] at h
        exact Option.noConfusion h
      · simp only [decodeList, he, hr, Option.some.injEq] at h
        subst h
        obtain ⟨hlen, hget⟩ := ih tail hr
        refine ⟨by simp [hlen], ?_⟩
        intro i h1 h2
        cases i with
        | zero => simpa using he
        | succ n =>
          simp only [List.getElem_cons_succ]
          exact hget n (Nat.lt_of_succ_lt_succ h1) (Nat.lt_of_succ_lt_succ h2)

/-- The Measurements container decodes iff it has at least one
Measurement child and all of them carry a Type attribute. -/
theorem decodeMeasurements_isSome (e : XmlElement) :
    (decodeMeasurements e).isSome ↔
      (childrenNamed e "Measurement" ≠ [] ∧
        ∀ m ∈ childrenNamed e "Measurement", (getAttr m "Type").isSome) := by
  unfold decodeMeasurements
  rcases hc : childrenNamed e "Measurement" with _ | ⟨c, cs⟩
  · simp
  · have h1 : ((decodeList (c :: cs)).map Measurements.mk).isSome =
        (decodeList (c :: cs)).isSome := by
      cases decodeList (c :: cs) <;> rfl
    simp only [List.isEmpty_cons, Bool.false_eq_true, if_false, h1,
      decodeList_isSome, decodeMeasurement_isSome, ne_eq, reduceCtorEq,
      not_false_eq_true, true_and]

/-- A Device element decodes iff Name, Serial, the unique Measurements
child, at least one Measurement child and every Measurement child's Type
attribute are present. -/
theorem decodeDevice_isSome (e : XmlElement) :
    (decodeDevice e).isSome ↔
      ((getAttr e "Name").isSome ∧ (getAttr e "Serial").isSome ∧
        ∃ mc, findChild e "Measurements" = some mc ∧
          childrenNamed mc "Measurement" ≠ [] ∧
          ∀ m ∈ childrenNamed mc "Measurement",
            (getAttr m "Type").isSome) := by
  rcases hn : getAttr e "Name" with _ | nm
  · simp [decodeDevice, hn]
  · rcases hs : getAttr e "Serial" with _ | serial
    · simp [decodeDevice, hn, hs]
    · rcases hmc : findChild e "Measurements" with _ | mc
      · simp [decodeDevice, hn, hs, hmc]
      · have hm := decodeMeasurements_isSome mc
        rcases hms : decodeMeasurements mc with _ | msS
        · rw [hms] at hm
          simp only [Option.isSome_none, Bool.false_eq_true, false_iff] at hm
          simp [decodeDevice, hn, hs, hmc, hms, hm]
        · rw [hms] at hm
          simp only [Option.isSome_some, true_iff] at hm
          simp [decodeDevice, hn, hs, hmc, hms]
          exact hm

/-- Field contents of a decoded Device. -/
theorem decodeDevice_some (e : XmlElement) (dev : Device) :
    decodeDevice e = some dev →
    getAttr e "Name" = some dev.name ∧ getAttr e "Serial" = some dev.serial ∧
    ∃ mc, findChild e "Measurements" = some mc ∧
      decodeList (childrenNamed mc "Measurement") =
        some dev.measurements.measurement := by
  intro h
  unfold decodeDevice at h
  rcases hn : getAttr e "Name" with _ | nm
  · rw [hn] at h
    exact Option.noConfusion h
  · rw [hn, Option.some_bind] at h
    rcases hs : getAttr e "Serial" with _ | serial
    · rw [hs] at h
      exact Option.noConfusion h
    · rw [hs, Option.some_bind] at h
      rcases hmc : findChild e "Measurements" with _ | mc
      · rw [hmc] at h
        exact Option.noConfusion h
      · rw [hmc, Option.some_bind] at h
        rcases hms : decodeMeasurements mc with _ | msS
        · rw [hms] at h
          exact Option.noConfusion h
        · rw [hms, Option.map_some'] at h
          cases h
          refine ⟨rfl, rfl, mc, rfl, ?_⟩
          unfold decodeMeasurements at hms
          rcases hch : childrenNamed mc "Measurement" with _ | ⟨c, cs⟩
          · rw [hch] at hms
            simp at hms
          · rw [hch] at hms
            simp only [List.isEmpty_cons, Bool.false_eq_true,
              if_false] at hms
            rcases hl : decodeList (c :: cs) with _ | l
            · rw [hl] at hms
              exact Option.noConfusion hms
            · rw [hl] at hms
              simp only [Option.map_some', Option.some.injEq] at hms
              subst hms
              rfl

/-- Decoding the root requires a decodable Device child. -/
theorem decodeRoot_some (doc : XmlElement) (root : Root) :
    decodeRoot doc = some root →
    ∃ d, findChild doc "Device" = some d ∧
      decodeDevice d = some root.device := by
  intro h
  unfold decodeRoot at h
  rcases hd : findChild doc "Device" with _ | d
  · rw [hd] at h
    exact Option.noConfusion h
  · rw [hd, Option.some_bind] at h
    rcases hdev : decodeDevice d with _ | dev
    · rw [hdev] at h
      exact Option.noConfusion h
    · rw [hdev, Option.map_some'] at h
      cases h
      exact ⟨d, rfl, hdev⟩

/-- The root decodes iff a Device child exists and decodes. -/
theorem decodeRoot_isSome_aux (doc : XmlElement) :
    (decodeRoot doc).isSome ↔
      ∃ d, findChild doc "Device" = some d ∧ (decodeDevice d).isSome := by
  unfold decodeRoot
  rcases hd : findChild doc "Device" with _ | d
  · simp
  · rcases hdev : decodeDevice d with _ | dev
    · simp [hdev]
    · simp [hdev]

/-- Decoding succeeds exactly on schema-conforming documents. -/
theorem decodeRoot_isSome (doc : XmlElement) :
    (decodeRoot doc).isSome ↔ matchesSchema doc := by
  rw [decodeRoot_isSome_aux]
  unfold matchesSchema
  constructor
  · rintro ⟨d, hd, hs⟩
    rw [decodeDevice_isSome] at hs
    obtain ⟨h1, h2, mc, h3, h4, h5⟩ := hs
    exact ⟨d, hd, h1, h2, mc, h3, h4, h5⟩
  · rintro ⟨d, hd, h1, h2, mc, h3, h4, h5⟩
    exact ⟨d, hd, (decodeDevice_isSome d).mpr ⟨h1, h2, mc, h3, h4, h5⟩⟩

/-- C5: decoding succeeds exactly on documents matching the expected
schema; a decoded reading has exactly one sample per Measurement element,
in document order, with rawValue the Value attribute (absent iff the
attribute is absent), kind the Type attribute and unit the Unit
attribute; any structural mismatch (missing or duplicate Device child,
missing Name or Serial attribute, missing or duplicate Measurements
container, zero Measurement children — a missing Vec field for serde —
or a missing Type attribute) yields no reading at all. -/
theorem C5_decode_schema_total_ordered :
    ∀ doc : XmlElement,
      ((decodeRoot doc).isSome ↔ matchesSchema doc) ∧
      (∀ root, decodeRoot doc = some root →
        ∃ d mc, findChild doc "Device" = some d ∧
          getAttr d "Name" = some root.device.name ∧
          getAttr d "Serial" = some root.device.serial ∧
          findChild d "Measurements" = some mc ∧
          root.device.measurements.measurement.length =
            (childrenNamed mc "Measurement").length ∧
          ∀ (i : Nat)
            (h1 : i < root.device.measurements.measurement.length)
            (h2 : i < (childrenNamed mc "Measurement").length),
            (root.device.measurements.measurement[i]).value =
              getAttr (childrenNamed mc "Measurement")[i] "Value" ∧
            ((root.device.measurements.measurement[i]).value = none ↔
              getAttr (childrenNamed mc "Measurement")[i] "Value" = none) ∧
            getAttr (childrenNamed mc "Measurement")[i] "Type" =
              some (root.device.measurements.measurement[i]).typ ∧
            (root.device.measurements.measurement[i]).unit =
              getAttr (childrenNamed mc "Measurement")[i] "Unit") := by
  intro doc
  refine ⟨decodeRoot_isSome doc, ?_⟩
  intro root hr
  obtain ⟨d, hd, hdev⟩ := decodeRoot_some doc root hr
  obtain ⟨h1, h2, mc, h3, h4⟩ := decodeDevice_some d root.device hdev
  obtain ⟨hlen, hget⟩ := decodeList_spec (childrenNamed mc "Measurement")
    root.device.measurements.measurement h4
  refine ⟨d, mc, hd, h1, h2, h3, hlen, ?_⟩
  intro i hi1 hi2
  obtain ⟨ht, hv, hu⟩ := decodeMeasurement_fields
    (childrenNamed mc "Measurement")[i]
    (root.device.measurements.measurement[i]) (hget i hi1 hi2)
  exact ⟨hv, by rw [hv], ht, hu⟩

/-- Witness for C5 on the §8 scenario document, which decodes to the
sample reading. -/
theorem C5_witness :
    ∃ d mc, findChild sampleDoc "Device" = some d ∧
      getAttr d "Name" = some sampleRoot.device.name ∧
      getAttr d "Serial" = some sampleRoot.device.serial ∧
      findChild d "Measurements" = some mc ∧
      sampleRoot.device.measurements.measurement.length =
        (childrenNamed mc "Measurement").length ∧
      ∀ (i : Nat)
        (h1 : i < sampleRoot.device.measurements.measurement.length)
        (h2 : i < (childrenNamed mc "Measurement").length),
        (sampleRoot.device.measurements.measurement[i]).value =
          getAttr (childrenNamed mc "Measurement")[i] "Value" ∧
        ((sampleRoot.device.measurements.measurement[i]).value = none ↔
          getAttr (childrenNamed mc "Measurement")[i] "Value" = none) ∧
        getAttr (childrenNamed mc "Measurement")[i] "Type" =
          some (sampleRoot.device.measurements.measurement[i]).typ ∧
        (sampleRoot.device.measurements.measurement[i]).unit =
          getAttr (childrenNamed mc "Measurement")[i] "Unit" :=
  (C5_decode_schema_total_ordered sampleDoc).2 sampleRoot (by rfl)

end SolBrid
